import Mathlib

/-
  Verification of the fsdiff snapshot/diff core.

  Shallow embedding of:
  - the file record model (internal/snapshot/file.go, FileInfo),
  - the snapshot builder (internal/snapshot/snapshot.go, newSnapshot / Create),
  - the snapshot opener (internal/snapshot/snapshot.go, Open),
  - the diff engine (snapshot.go, diffCmd.run / diffCmd.compareFiles).

  Buckets of the bolt store are modelled as association lists with
  put-replaces-existing-key semantics; byte strings as List Nat; time.Time
  as Int (time.Time.Equal is exact equality); os.FileMode as Nat with the
  Go mode bit positions (ModeDir = bit 31, ModeSymlink = bit 27,
  ModeDevice = bit 26, ModeNamedPipe = bit 25, ModeSocket = bit 24,
  ModeCharDevice = bit 21).  The SHA-1 digest of checksumFile is an
  abstract parameter csf : List Nat -> List Nat.
-/

namespace Fsdiff

/-- FileInfo (internal/snapshot/file.go): one filesystem entry of a snapshot.
Checksum is `none` for Go's nil slice ("no checksum computed"). -/
structure FileInfo where
  path : String
  size : Int
  mtime : Int
  uid : Nat
  gid : Nat
  mode : Nat
  linkTo : String
  isDir : Bool
  isSock : Bool
  isPipe : Bool
  isDev : Bool
  checksum : Option (List Nat)
deriving Repr, DecidableEq

/-- Snapshot metadata (internal/snapshot/snapshot.go, Metadata). -/
structure Metadata where
  formatVersion : Nat
  fsdiffVersion : String
  date : Int
  rootDir : String
  shallow : Bool
deriving Repr, DecidableEq

/-- FormatVersion constant (internal/snapshot/snapshot.go line 28). -/
def currentFormatVersion : Nat := 1

/-- A persisted snapshot file: the three bolt buckets.  The three Booleans
model whether the metadata bucket exists, whether it holds an "info" record
and whether that record gob-decodes; a store written by the builder has all
three true. -/
structure Store where
  hasMetaBucket : Bool
  hasInfo : Bool
  infoDecodes : Bool
  meta : Metadata
  byPath : List (String × FileInfo)
  byCS : List (List Nat × FileInfo)
deriving Repr, DecidableEq

/-- Helper for splitOnSlash, working on the character list. -/
def splitAux : List Char → List (List Char)
  | [] => [[]]
  | c :: t =>
    if c = '/' then [] :: splitAux t
    else
      match splitAux t with
      | [] => [[c]]
      | h :: r => (c :: h) :: r

/-- Go's strings.Split(s, "/"): every "/" separates, empty segments kept,
the empty string yields one empty segment. -/
def splitOnSlash (s : String) : List String :=
  (splitAux s.data).map fun l => { data := l }

/-- bolt Bucket.Put: replace the value of an existing key, else append. -/
def bPut {α : Type} [DecidableEq α] (k : α) (v : FileInfo) :
    List (α × FileInfo) → List (α × FileInfo)
  | [] => [(k, v)]
  | (k', v') :: t => if k = k' then (k, v) :: t else (k', v') :: bPut k v t

/-- bolt Bucket.Get: first value stored under the key, if any. -/
def bGet {α : Type} [DecidableEq α] (k : α) :
    List (α × FileInfo) → Option FileInfo
  | [] => none
  | (k', v') :: t => if k = k' then some v' else bGet k t

/-- Open (internal/snapshot/snapshot.go lines 251-282): requires the
metadata bucket, an "info" record in it, and a successful decode; the
decoded metadata is returned.  No other field of the metadata is
inspected. -/
def openSnapshot (s : Store) : Option Metadata :=
  if s.hasMetaBucket then
    if s.hasInfo then
      if s.infoDecodes then some s.meta else none
    else none
  else none

/-- One entry delivered by filepath.Walk to the builder's walk function:
the stat data plus error flags for the walk callback error, symlink
resolution and content reading. -/
structure WalkEntry where
  path : String
  walkErr : Bool
  size : Int
  mtime : Int
  uid : Nat
  gid : Nat
  mode : Nat
  linkTarget : String
  linkReadErr : Bool
  content : List Nat
  readErr : Bool
deriving Repr, DecidableEq

/-- The two data buckets while the builder's write transaction runs. -/
structure BuildState where
  byPath : List (String × FileInfo)
  byCS : List (List Nat × FileInfo)
deriving Repr, DecidableEq

/-- The FileInfo literal built from the stat data (Create lines 189-197). -/
def baseRecord (e : WalkEntry) : FileInfo :=
  { path := e.path, size := e.size, mtime := e.mtime, uid := e.uid,
    gid := e.gid, mode := e.mode, linkTo := "",
    isDir := e.mode.testBit 31, isSock := false, isPipe := false,
    isDev := false, checksum := none }

/-- Symlink target resolution (Create lines 199-207, success path). -/
def withLink (e : WalkEntry) (f : FileInfo) : FileInfo :=
  if e.mode.testBit 27 then { f with linkTo := e.linkTarget } else f

/-- Kind classification from the mode bits (Create lines 209-215). -/
def classify (e : WalkEntry) (f : FileInfo) : FileInfo :=
  if e.mode.testBit 24 then { f with isSock := true }
  else if e.mode.testBit 25 then { f with isPipe := true }
  else if e.mode.testBit 26 || e.mode.testBit 21 then { f with isDev := true }
  else f

/-- The walk function body of Create (internal/snapshot/snapshot.go lines
171-244) for one entry: exclusion check, walk-error policy, record
construction, symlink resolution, kind classification, checksum indexing
(guarded by shallow mode and kind), byPath indexing.  `none` models the
walk aborting with an error. -/
def walkStep (csf : List Nat → List Nat) (excl : List String → Bool → Bool)
    (carryOn shallow : Bool) (s : BuildState) (e : WalkEntry) :
    Option BuildState :=
  if excl (splitOnSlash e.path) (e.mode.testBit 31) then some s
  else if e.walkErr then (if carryOn then some s else none)
  else if e.mode.testBit 27 && e.linkReadErr then
    (if carryOn then some s else none)
  else
    let f2 := classify e (withLink e (baseRecord e))
    if shallow = false ∧ f2.isDir = false ∧ f2.isSock = false ∧
        f2.isPipe = false ∧ f2.isDev = false ∧ f2.linkTo = "" then
      if e.readErr then (if carryOn then some s else none)
      else
        let f3 := { f2 with checksum := some (csf e.content) }
        some { byPath := bPut e.path f3 s.byPath,
               byCS := bPut (csf e.content) f3 s.byCS }
    else
      some { s with byPath := bPut e.path f2 s.byPath }

/-- The builder's single write transaction over the whole traversal
(Create's snap.Write call): fold walkStep over the walk entries; an error
aborts the transaction, which rolls back. -/
def walkTx (csf : List Nat → List Nat) (excl : List String → Bool → Bool)
    (carryOn shallow : Bool) : BuildState → List WalkEntry → Option BuildState
  | s, [] => some s
  | s, e :: t =>
    match walkStep csf excl carryOn shallow s e with
    | some s' => walkTx csf excl carryOn shallow s' t
    | none => none

/-- The store left by newSnapshot (internal/snapshot/snapshot.go lines
89-149): metadata and two empty buckets, committed in a first transaction
of their own. -/
def initialStore (fsv : String) (dt : Int) (rt : String) (shallow : Bool) : Store :=
  { hasMetaBucket := true, hasInfo := true, infoDecodes := true,
    meta := { formatVersion := currentFormatVersion, fsdiffVersion := fsv,
              date := dt, rootDir := rt, shallow := shallow },
    byPath := [], byCS := [] }

/-- Create (internal/snapshot/snapshot.go lines 153-248): newSnapshot
commits metadata and the empty buckets, then the traversal runs in a
second write transaction.  The Boolean is true when Create returns no
error; on error the walk transaction has rolled back, so the store on disk
is the one newSnapshot committed. -/
def createModel (csf : List Nat → List Nat) (excl : List String → Bool → Bool)
    (carryOn shallow : Bool) (fsv : String) (dt : Int) (rt : String)
    (entries : List WalkEntry) : Store × Bool :=
  let s0 := initialStore fsv dt rt shallow
  match walkTx csf excl carryOn shallow ⟨[], []⟩ entries with
  | some bs => ({ s0 with byPath := bs.byPath, byCS := bs.byCS }, true)
  | none => (s0, false)

/-- diffTypeNew (snapshot.go line 366). -/
def diffTypeNew : Nat := 0

/-- diffTypeModified (snapshot.go line 367). -/
def diffTypeModified : Nat := 1

/-- diffTypeDeleted (snapshot.go line 368). -/
def diffTypeDeleted : Nat := 2

/-- fileDiff (snapshot.go lines 371-376); changes is the set of keys of
the property-diff map. -/
structure FileDiff where
  diffType : Nat
  fileBefore : Option FileInfo
  fileAfter : Option FileInfo
  changes : List String
deriving Repr, DecidableEq

/-- diffCmdOutput (snapshot.go lines 378-385). -/
structure DiffOutput where
  sumNew : Nat
  sumModified : Nat
  sumDeleted : Nat
  changes : List FileDiff
deriving Repr, DecidableEq

/-- The diff command options used by diffCmd.run. -/
structure DiffCmd where
  ignore : List String
  ignoreNew : Bool
  ignoreModified : Bool
  ignoreDeleted : Bool
deriving Repr, DecidableEq

/-- diffCmd.ignored (snapshot.go lines 636-644). -/
def DiffCmd.ignored (c : DiffCmd) (p : String) : Prop := p ∈ c.ignore

instance (c : DiffCmd) (p : String) : Decidable (c.ignored p) :=
  inferInstanceAs (Decidable (p ∈ c.ignore))

/-- diffCmd.compareFiles (snapshot.go lines 573-633): the keys of the
returned property-diff map, in source order. -/
def compareFiles (c : DiffCmd) (before after : FileInfo) : List String :=
  (if ¬c.ignored "size" ∧ before.size ≠ after.size then ["size"] else [])
  ++ (if ¬c.ignored "mtime" ∧ before.mtime ≠ after.mtime then ["mtime"] else [])
  ++ (if ¬c.ignored "uid" ∧ before.uid ≠ after.uid then ["uid"] else [])
  ++ (if ¬c.ignored "gid" ∧ before.gid ≠ after.gid then ["gid"] else [])
  ++ (if ¬c.ignored "mode" ∧ before.mode ≠ after.mode then ["mode"] else [])
  ++ (if before.linkTo ≠ after.linkTo then ["link"] else [])
  ++ (if before.isDir ≠ after.isDir then ["dir"] else [])
  ++ (if before.isSock ≠ after.isSock then ["sock"] else [])
  ++ (if before.isPipe ≠ after.isPipe then ["pipe"] else [])
  ++ (if before.isDev ≠ after.isDev then ["dev"] else [])
  ++ (if ¬c.ignored "checksum" ∧ before.checksum ≠ none ∧ after.checksum ≠ none ∧
        before.checksum ≠ after.checksum then ["checksum"] else [])

/-- The deleted-file record emitted by the reverse pass (snapshot.go line
551): a FileInfo with only Path set, every other field at its Go zero
value. -/
def blankFileInfo (p : String) : FileInfo :=
  { path := p, size := 0, mtime := 0, uid := 0, gid := 0, mode := 0,
    linkTo := "", isDir := false, isSock := false, isPipe := false,
    isDev := false, checksum := none }

/-- The forward pass body of diffCmd.run (snapshot.go lines 465-530) for
one after-entry, threading the moved set and the output. -/
def forwardStep (c : DiffCmd) (excl : List String → Bool → Bool) (shallow : Bool)
    (byPathBefore : List (String × FileInfo)) (byCSBefore : List (List Nat × FileInfo))
    (acc : List String × DiffOutput) (pe : String × FileInfo) :
    List String × DiffOutput :=
  let moved := acc.1
  let out := acc.2
  let fa := pe.2
  if excl (splitOnSlash fa.path) fa.isDir then acc
  else
    match bGet pe.1 byPathBefore with
    | some fb =>
      let chs := compareFiles c fb fa
      if chs ≠ [] ∧ c.ignoreModified = false then
        (moved,
          { out with sumModified := out.sumModified + 1,
                     changes := out.changes ++
                       [⟨diffTypeModified, some fb, some fa, chs⟩] })
      else acc
    | none =>
      let newOut :=
        if c.ignoreNew = false then
          { out with sumNew := out.sumNew + 1,
                     changes := out.changes ++ [⟨diffTypeNew, none, some fa, []⟩] }
        else out
      let csHit : Option FileInfo :=
        if fa.size > 0 ∧ shallow = false then
          match fa.checksum with
          | some cs => bGet cs byCSBefore
          | none => none
        else none
      match csHit with
      | some fb =>
        if c.ignoreModified = false then
          (fb.path :: moved,
            { out with sumModified := out.sumModified + 1,
                       changes := out.changes ++
                         [⟨diffTypeModified, some fb, some fa, compareFiles c fb fa⟩] })
        else (moved, newOut)
      | none => (moved, newOut)

/-- The reverse pass body of diffCmd.run (snapshot.go lines 536-561) for
one before-entry. -/
def reverseStep (c : DiffCmd) (excl : List String → Bool → Bool)
    (moved : List String) (byPathAfter : List (String × FileInfo))
    (out : DiffOutput) (pe : String × FileInfo) : DiffOutput :=
  match bGet pe.1 byPathAfter with
  | some _ => out
  | none =>
    if pe.1 ∈ moved then out
    else
      let fb := pe.2
      if excl (splitOnSlash fb.path) fb.isDir then out
      else if c.ignoreDeleted = false then
        { out with sumDeleted := out.sumDeleted + 1,
                   changes := out.changes ++
                     [⟨diffTypeDeleted, none, some (blankFileInfo pe.1), []⟩] }
      else out

/-- The empty diffCmdOutput diffCmd.run starts from. -/
def emptyOutput : DiffOutput := ⟨0, 0, 0, []⟩

/-- diffCmd.run (snapshot.go lines 416-571): shallow is the disjunction of
the two snapshots' metadata flags; the forward pass folds over the after
byPath bucket, then the reverse pass folds over the before byPath
bucket. -/
def diffRun (c : DiffCmd) (excl : List String → Bool → Bool)
    (before after : Store) : DiffOutput :=
  let shallow := before.meta.shallow || after.meta.shallow
  let fwd := after.byPath.foldl
    (forwardStep c excl shallow before.byPath before.byCS) ([], emptyOutput)
  before.byPath.foldl (reverseStep c excl fwd.1 after.byPath) fwd.2

/-- A diffCmd with no options set: nothing ignored, nothing suppressed. -/
def defaultDiffCmd : DiffCmd := ⟨[], false, false, false⟩

/-- The matcher of an empty exclusion pattern list: matches nothing. -/
def noExclusion : List String → Bool → Bool := fun _ _ => false

/-- A walk entry for a plain regular file at relative path p with content
x: no error, size equal to the content length, no special mode bits. -/
def regFileEntry (p : String) (x : List Nat) (t : Int) (u g m : Nat) : WalkEntry :=
  { path := p, walkErr := false, size := (x.length : Int), mtime := t,
    uid := u, gid := g, mode := m, linkTarget := "", linkReadErr := false,
    content := x, readErr := false }

/-- The record the builder stores for a plain regular file. -/
def regRecord (p : String) (x : List Nat) (t : Int) (u g m : Nat)
    (cs : Option (List Nat)) : FileInfo :=
  { path := p, size := (x.length : Int), mtime := t, uid := u, gid := g,
    mode := m, linkTo := "", isDir := false, isSock := false, isPipe := false,
    isDev := false, checksum := cs }

/-- A byPath bucket is well formed when every record is stored under its
own path; the builder only ever writes records this way. -/
def pathKeysConsistent (l : List (String × FileInfo)) : Prop :=
  ∀ kr ∈ l, (kr : String × FileInfo).2.path = kr.1

instance (l : List (String × FileInfo)) : Decidable (pathKeysConsistent l) :=
  inferInstanceAs (Decidable (∀ kr ∈ l, (kr : String × FileInfo).2.path = kr.1))

/-- The demonstration digest used for concrete stores: prepends a marker
byte, so it is injective and never returns an empty key. -/
def csfDemo : List Nat → List Nat := fun l => 9 :: l

theorem bGet_eq_some_mem {α : Type} [DecidableEq α] {k : α} {v : FileInfo} :
    ∀ {l : List (α × FileInfo)}, bGet k l = some v → (k, v) ∈ l := by
  intro l
  induction l with
  | nil => intro h; simp [bGet] at h
  | cons kv t ih =>
    intro h
    rw [bGet] at h
    by_cases hk : k = kv.1
    · rw [if_pos hk] at h
      have hkv : (k, v) = kv := by
        cases kv
        simp_all
      rw [hkv]
      exact List.mem_cons_self _ _
    · rw [if_neg hk] at h
      exact List.mem_cons_of_mem _ (ih h)

theorem bGet_of_mem_nodup {α : Type} [DecidableEq α] {k : α} {v : FileInfo} :
    ∀ {l : List (α × FileInfo)}, (k, v) ∈ l → (l.map Prod.fst).Nodup →
      bGet k l = some v := by
  intro l
  induction l with
  | nil => intro h; simp at h
  | cons kv t ih =>
    intro hmem hnd
    rw [List.map_cons, List.nodup_cons] at hnd
    rcases List.mem_cons.mp hmem with heq | htail
    · rw [bGet, ← heq, if_pos rfl]
    · have hk : k ≠ kv.1 := by
        intro hk
        exact hnd.1 (hk ▸ List.mem_map_of_mem Prod.fst htail)
      rw [bGet, if_neg hk]
      exact ih htail hnd.2

theorem bGet_isSome_of_mem {α : Type} [DecidableEq α] {k : α} {v : FileInfo} :
    ∀ {l : List (α × FileInfo)}, (k, v) ∈ l → ∃ w, bGet k l = some w := by
  intro l
  induction l with
  | nil => intro h; simp at h
  | cons kv t ih =>
    intro hmem
    by_cases hk : k = kv.1
    · exact ⟨kv.2, by rw [bGet, if_pos hk]⟩
    · rcases List.mem_cons.mp hmem with heq | htail
      · exact absurd (congrArg Prod.fst heq) hk
      · obtain ⟨w, hw⟩ := ih htail
        exact ⟨w, by rw [bGet, if_neg hk]; exact hw⟩

theorem mem_bPut {α : Type} [DecidableEq α] {k : α} {v : FileInfo}
    {kr : α × FileInfo} :
    ∀ {l : List (α × FileInfo)}, kr ∈ bPut k v l → kr = (k, v) ∨ kr ∈ l := by
  intro l
  induction l with
  | nil => intro h; rw [bPut] at h; simp at h; exact Or.inl (by simp [h])
  | cons kv t ih =>
    intro h
    rw [bPut] at h
    by_cases hk : k = kv.1
    · rw [if_pos hk] at h
      rcases List.mem_cons.mp h with heq | htail
      · exact Or.inl heq
      · exact Or.inr (List.mem_cons_of_mem _ htail)
    · rw [if_neg hk] at h
      rcases List.mem_cons.mp h with heq | htail
      · exact Or.inr (heq ▸ List.mem_cons_self _ _)
      · rcases ih htail with h1 | h2
        · exact Or.inl h1
        · exact Or.inr (List.mem_cons_of_mem _ h2)

theorem bGet_bPut_self {α : Type} [DecidableEq α] (k : α) (v : FileInfo) :
    ∀ (l : List (α × FileInfo)), bGet k (bPut k v l) = some v := by
  intro l
  induction l with
  | nil => rw [bPut, bGet, if_pos rfl]
  | cons kv t ih =>
    rw [bPut]
    by_cases hk : k = kv.1
    · rw [if_pos hk, bGet, if_pos rfl]
    · rw [if_neg hk, bGet, if_neg hk]
      exact ih

theorem bGet_bPut_ne {α : Type} [DecidableEq α] {k k' : α} (v : FileInfo)
    (hne : k ≠ k') :
    ∀ (l : List (α × FileInfo)), bGet k (bPut k' v l) = bGet k l := by
  intro l
  induction l with
  | nil => simp [bPut, bGet, hne]
  | cons kv t ih =>
    rw [bPut]
    by_cases hk : k' = kv.1
    · rw [if_pos hk, bGet, if_neg (hk ▸ hne), bGet, if_neg (hk ▸ hne)]
    · rw [if_neg hk, bGet, bGet]
      by_cases hkk : k = kv.1
      · rw [if_pos hkk, if_pos hkk]
      · rw [if_neg hkk, if_neg hkk]
        exact ih

theorem map_fst_bPut {α : Type} [DecidableEq α] {k : α} {v : FileInfo}
    {k' : α} :
    ∀ {l : List (α × FileInfo)}, k' ∈ (bPut k v l).map Prod.fst →
      k' = k ∨ k' ∈ l.map Prod.fst := by
  intro l h
  rw [List.mem_map] at h
  obtain ⟨kr, hkr, hfst⟩ := h
  rcases mem_bPut hkr with heq | hmem
  · exact Or.inl (by rw [← hfst, heq])
  · exact Or.inr (hfst ▸ List.mem_map_of_mem Prod.fst hmem)

theorem foldl_fixed {α β : Type} (f : α → β → α) (a : α) :
    ∀ (l : List β), (∀ x ∈ l, f a x = a) → l.foldl f a = a := by
  intro l
  induction l with
  | nil => intro _; rfl
  | cons x t ih =>
    intro h
    rw [List.foldl_cons, h x (List.mem_cons_self _ _)]
    exact ih (fun y hy => h y (List.mem_cons_of_mem _ hy))

theorem foldl_inv {α β : Type} (f : α → β → α) (P : α → Prop) :
    ∀ (l : List β) (a : α), P a → (∀ acc x, x ∈ l → P acc → P (f acc x)) →
      P (l.foldl f a) := by
  intro l
  induction l with
  | nil => intro a h _; exact h
  | cons x t ih =>
    intro a h hf
    rw [List.foldl_cons]
    exact ih (f a x) (hf a x (List.mem_cons_self _ _) h)
      (fun acc y hy => hf acc y (List.mem_cons_of_mem _ hy))

theorem compareFiles_self (c : DiffCmd) (r : FileInfo) :
    compareFiles c r r = [] := by
  simp [compareFiles]

theorem withLink_path (e : WalkEntry) (f : FileInfo) :
    (withLink e f).path = f.path := by
  unfold withLink
  split <;> rfl

theorem withLink_checksum (e : WalkEntry) (f : FileInfo) :
    (withLink e f).checksum = f.checksum := by
  unfold withLink
  split <;> rfl

theorem classify_path (e : WalkEntry) (f : FileInfo) :
    (classify e f).path = f.path := by
  unfold classify
  split
  · rfl
  · split
    · rfl
    · split <;> rfl

theorem classify_checksum (e : WalkEntry) (f : FileInfo) :
    (classify e f).checksum = f.checksum := by
  unfold classify
  split
  · rfl
  · split
    · rfl
    · split <;> rfl

theorem walkStep_cases (csf : List Nat → List Nat)
    (excl : List String → Bool → Bool) (carryOn shallow : Bool)
    (s : BuildState) (e : WalkEntry) (s' : BuildState)
    (h : walkStep csf excl carryOn shallow s e = some s') :
    s' = s ∨
    (∃ f, f.path = e.path ∧ f.checksum = none ∧
       s' = ⟨bPut e.path f s.byPath, s.byCS⟩) ∨
    (∃ f, f.path = e.path ∧ f.checksum = some (csf e.content) ∧
       f.isDir = false ∧ f.isSock = false ∧ f.isPipe = false ∧
       f.isDev = false ∧ f.linkTo = "" ∧
       s' = ⟨bPut e.path f s.byPath, bPut (csf e.content) f s.byCS⟩) := by
  rw [walkStep] at h
  by_cases h1 : excl (splitOnSlash e.path) (e.mode.testBit 31) = true
  · rw [if_pos h1] at h
    exact Or.inl (Option.some_injective _ h).symm
  · rw [if_neg h1] at h
    by_cases h2 : e.walkErr = true
    · rw [if_pos h2] at h
      by_cases hc : carryOn = true
      · rw [if_pos hc] at h
        exact Or.inl (Option.some_injective _ h).symm
      · rw [if_neg hc] at h
        cases h
    · rw [if_neg h2] at h
      by_cases h3 : (e.mode.testBit 27 && e.linkReadErr) = true
      · rw [if_pos h3] at h
        by_cases hc : carryOn = true
        · rw [if_pos hc] at h
          exact Or.inl (Option.some_injective _ h).symm
        · rw [if_neg hc] at h
          cases h
      · rw [if_neg h3] at h
        simp only [] at h
        by_cases hg : shallow = false ∧
            (classify e (withLink e (baseRecord e))).isDir = false ∧
            (classify e (withLink e (baseRecord e))).isSock = false ∧
            (classify e (withLink e (baseRecord e))).isPipe = false ∧
            (classify e (withLink e (baseRecord e))).isDev = false ∧
            (classify e (withLink e (baseRecord e))).linkTo = ""
        · rw [if_pos hg] at h
          by_cases hr : e.readErr = true
          · rw [if_pos hr] at h
            by_cases hc : carryOn = true
            · rw [if_pos hc] at h
              exact Or.inl (Option.some_injective _ h).symm
            · rw [if_neg hc] at h
              cases h
          · rw [if_neg hr] at h
            refine Or.inr (Or.inr ⟨{ classify e (withLink e (baseRecord e)) with
                checksum := some (csf e.content) }, ?_, rfl, hg.2.1, hg.2.2.1,
              hg.2.2.2.1, hg.2.2.2.2.1, hg.2.2.2.2.2,
              (Option.some_injective _ h).symm⟩)
            show (classify e (withLink e (baseRecord e))).path = e.path
            rw [classify_path, withLink_path]
            rfl
        · rw [if_neg hg] at h
          refine Or.inr (Or.inl ⟨_, ?_, ?_, (Option.some_injective _ h).symm⟩)
          · rw [classify_path, withLink_path]
            rfl
          · rw [classify_checksum, withLink_checksum]
            rfl

theorem mem_map_fst_of_bGet {α : Type} [DecidableEq α] {k : α} {v : FileInfo}
    {l : List (α × FileInfo)} (h : bGet k l = some v) : k ∈ l.map Prod.fst :=
  List.mem_map_of_mem Prod.fst (bGet_eq_some_mem h)

theorem walkTx_inv (csf : List Nat → List Nat)
    (excl : List String → Bool → Bool) (carryOn shallow : Bool)
    (P : BuildState → Prop)
    (hstep : ∀ s e s', walkStep csf excl carryOn shallow s e = some s' →
      P s → P s') :
    ∀ (entries : List WalkEntry) (s s' : BuildState),
      walkTx csf excl carryOn shallow s entries = some s' → P s → P s' := by
  intro entries
  induction entries with
  | nil =>
    intro s s' h hp
    rw [walkTx] at h
    exact (Option.some_injective _ h) ▸ hp
  | cons e t ih =>
    intro s s' h hp
    rw [walkTx] at h
    cases hws : walkStep csf excl carryOn shallow s e with
    | none => rw [hws] at h; cases h
    | some s1 =>
      rw [hws] at h
      exact ih s1 s' h (hstep s e s1 hws hp)

/-- Every record of the byChecksum bucket is a regular non-symlink entry
carrying a checksum: this is what the guard of the checksum-indexing
branch enforces. -/
def regularNonSymlink (r : FileInfo) : Prop :=
  r.isDir = false ∧ r.isSock = false ∧ r.isPipe = false ∧ r.isDev = false ∧
    r.linkTo = "" ∧ r.checksum.isSome = true

theorem walkStep_byCS_regular (csf : List Nat → List Nat)
    (excl : List String → Bool → Bool) (carryOn shallow : Bool)
    (s : BuildState) (e : WalkEntry) (s' : BuildState)
    (h : walkStep csf excl carryOn shallow s e = some s')
    (hs : ∀ kr ∈ s.byCS, regularNonSymlink (kr : List Nat × FileInfo).2) :
    ∀ kr ∈ s'.byCS, regularNonSymlink (kr : List Nat × FileInfo).2 := by
  rcases walkStep_cases csf excl carryOn shallow s e s' h with
    heq | ⟨f, _, _, heq⟩ | ⟨f, _, hcs, hdir, hsock, hpipe, hdev, hlink, heq⟩
  · exact heq ▸ hs
  · exact heq ▸ hs
  · subst heq
    intro kr hkr
    rcases mem_bPut hkr with heq2 | hmem
    · subst heq2
      exact ⟨hdir, hsock, hpipe, hdev, hlink, by rw [hcs]; rfl⟩
    · exact hs kr hmem

/-- The byChecksum consistency invariant: every indexed record carries the
checksum it is keyed under, and the byPath bucket holds the very same
record under the record's path. -/
def csConsistent (bs : BuildState) : Prop :=
  ∀ kr ∈ bs.byCS, (kr : List Nat × FileInfo).2.checksum = some kr.1 ∧
    bGet kr.2.path bs.byPath = some kr.2

theorem walkTx_csConsistent (csf : List Nat → List Nat)
    (excl : List String → Bool → Bool) (carryOn shallow : Bool) :
    ∀ (entries : List WalkEntry) (s s' : BuildState),
      (entries.map WalkEntry.path).Nodup →
      (∀ e ∈ entries, ∀ k ∈ s.byPath.map Prod.fst, k ≠ e.path) →
      csConsistent s →
      walkTx csf excl carryOn shallow s entries = some s' →
      csConsistent s' := by
  intro entries
  induction entries with
  | nil =>
    intro s s' _ _ hcs h
    rw [walkTx] at h
    exact (Option.some_injective _ h) ▸ hcs
  | cons e t ih =>
    intro s s' hnd hfresh hcs h
    rw [walkTx] at h
    cases hws : walkStep csf excl carryOn shallow s e with
    | none => rw [hws] at h; cases h
    | some s1 =>
      rw [hws] at h
      rw [List.map_cons, List.nodup_cons] at hnd
      have hfr_e : ∀ k ∈ s.byPath.map Prod.fst, k ≠ e.path :=
        hfresh e (List.mem_cons_self _ _)
      have hkeys : ∀ k ∈ s1.byPath.map Prod.fst,
          k = e.path ∨ k ∈ s.byPath.map Prod.fst := by
        rcases walkStep_cases csf excl carryOn shallow s e s1 hws with
          heq | ⟨f, _, _, heq⟩ | ⟨f, _, _, _, _, _, _, _, heq⟩
        · exact heq ▸ fun k hk => Or.inr hk
        · exact heq ▸ fun k hk => map_fst_bPut hk
        · exact heq ▸ fun k hk => map_fst_bPut hk
      have hfresh1 : ∀ e' ∈ t, ∀ k ∈ s1.byPath.map Prod.fst, k ≠ e'.path := by
        intro e' he' k hk
        rcases hkeys k hk with hke | hkold
        · subst hke
          intro hcontra
          exact hnd.1 (hcontra ▸ List.mem_map_of_mem WalkEntry.path he')
        · exact hfresh e' (List.mem_cons_of_mem _ he') k hkold
      have hcs1 : csConsistent s1 := by
        rcases walkStep_cases csf excl carryOn shallow s e s1 hws with
          heq | ⟨f, hfp, _, heq⟩ | ⟨f, hfp, hfc, _, _, _, _, _, heq⟩
        · exact heq ▸ hcs
        · subst heq
          intro kr hkr
          obtain ⟨hc, hg⟩ := hcs kr hkr
          refine ⟨hc, ?_⟩
          have hne : kr.2.path ≠ e.path := hfr_e _ (mem_map_fst_of_bGet hg)
          rw [bGet_bPut_ne f hne]
          exact hg
        · subst heq
          intro kr hkr
          rcases mem_bPut hkr with heq2 | hmem
          · subst heq2
            exact ⟨hfc, by rw [hfp, bGet_bPut_self]⟩
          · obtain ⟨hc, hg⟩ := hcs kr hmem
            refine ⟨hc, ?_⟩
            have hne : kr.2.path ≠ e.path := hfr_e _ (mem_map_fst_of_bGet hg)
            rw [bGet_bPut_ne f hne]
            exact hg
      exact ih s1 s' hnd.2 hfresh1 hcs1 h

theorem forwardStep_cases (c : DiffCmd) (excl : List String → Bool → Bool)
    (shallow : Bool) (bpb : List (String × FileInfo))
    (bcs : List (List Nat × FileInfo)) (acc : List String × DiffOutput)
    (pe : String × FileInfo) :
    forwardStep c excl shallow bpb bcs acc pe = acc ∨
    (excl (splitOnSlash pe.2.path) pe.2.isDir = false ∧ c.ignoreModified = false ∧
      ((∃ fb, bGet pe.1 bpb = some fb ∧
         forwardStep c excl shallow bpb bcs acc pe =
           (acc.1,
            { acc.2 with
                sumModified := acc.2.sumModified + 1,
                changes := acc.2.changes ++
                  [⟨diffTypeModified, some fb, some pe.2, compareFiles c fb pe.2⟩] })) ∨
       (∃ fb cs, bGet pe.1 bpb = none ∧ pe.2.size > 0 ∧ shallow = false ∧
         pe.2.checksum = some cs ∧ bGet cs bcs = some fb ∧
         forwardStep c excl shallow bpb bcs acc pe =
           (fb.path :: acc.1,
            { acc.2 with
                sumModified := acc.2.sumModified + 1,
                changes := acc.2.changes ++
                  [⟨diffTypeModified, some fb, some pe.2, compareFiles c fb pe.2⟩] })))) ∨
    (excl (splitOnSlash pe.2.path) pe.2.isDir = false ∧ c.ignoreNew = false ∧
      bGet pe.1 bpb = none ∧
      forwardStep c excl shallow bpb bcs acc pe =
        (acc.1,
         { acc.2 with
             sumNew := acc.2.sumNew + 1,
             changes := acc.2.changes ++ [⟨diffTypeNew, none, some pe.2, []⟩] })) := by
  by_cases h1 : excl (splitOnSlash pe.2.path) pe.2.isDir = true
  · left
    simp only [forwardStep, if_pos h1]
  · have h1f : excl (splitOnSlash pe.2.path) pe.2.isDir = false :=
      Bool.eq_false_iff.mpr h1
    cases hbp : bGet pe.1 bpb with
    | some fb =>
      by_cases hm : compareFiles c fb pe.2 ≠ [] ∧ c.ignoreModified = false
      · refine Or.inr (Or.inl ⟨h1f, hm.2, Or.inl ⟨fb, rfl, ?_⟩⟩)
        simp only [forwardStep, if_neg h1, hbp, if_pos hm]
      · left
        simp only [forwardStep, if_neg h1, hbp, if_neg hm]
    | none =>
      have hnewOut :
          (if c.ignoreNew = false then
            { acc.2 with
                sumNew := acc.2.sumNew + 1,
                changes := acc.2.changes ++ [⟨diffTypeNew, none, some pe.2, []⟩] }
          else acc.2) = acc.2 ∨ c.ignoreNew = false := by
        by_cases hn : c.ignoreNew = false
        · exact Or.inr hn
        · exact Or.inl (if_neg hn)
      by_cases hsz : pe.2.size > 0 ∧ shallow = false
      · cases hch : pe.2.checksum with
        | none =>
          by_cases hn : c.ignoreNew = false
          · refine Or.inr (Or.inr ⟨h1f, hn, rfl, ?_⟩)
            simp only [forwardStep, if_neg h1, hbp, if_pos hsz, hch, if_pos hn]
          · left
            simp only [forwardStep, if_neg h1, hbp, if_pos hsz, hch, if_neg hn]
        | some cs =>
          cases hcsb : bGet cs bcs with
          | none =>
            by_cases hn : c.ignoreNew = false
            · refine Or.inr (Or.inr ⟨h1f, hn, rfl, ?_⟩)
              simp only [forwardStep, if_neg h1, hbp, if_pos hsz, hch, hcsb,
                if_pos hn]
            · left
              simp only [forwardStep, if_neg h1, hbp, if_pos hsz, hch, hcsb,
                if_neg hn]
          | some fb =>
            by_cases him : c.ignoreModified = false
            · refine Or.inr (Or.inl ⟨h1f, him, Or.inr
                ⟨fb, cs, rfl, hsz.1, hsz.2, rfl, hcsb, ?_⟩⟩)
              simp only [forwardStep, if_neg h1, hbp, if_pos hsz, hch, hcsb,
                if_pos him]
            · by_cases hn : c.ignoreNew = false
              · refine Or.inr (Or.inr ⟨h1f, hn, rfl, ?_⟩)
                simp only [forwardStep, if_neg h1, hbp, if_pos hsz, hch, hcsb,
                  if_neg him, if_pos hn]
              · left
                simp only [forwardStep, if_neg h1, hbp, if_pos hsz, hch, hcsb,
                  if_neg him, if_neg hn]
      · by_cases hn : c.ignoreNew = false
        · refine Or.inr (Or.inr ⟨h1f, hn, rfl, ?_⟩)
          simp only [forwardStep, if_neg h1, hbp, if_neg hsz, if_pos hn]
        · left
          simp only [forwardStep, if_neg h1, hbp, if_neg hsz, if_neg hn]

theorem reverseStep_cases (c : DiffCmd) (excl : List String → Bool → Bool)
    (moved : List String) (bpa : List (String × FileInfo)) (out : DiffOutput)
    (pe : String × FileInfo) :
    reverseStep c excl moved bpa out pe = out ∨
    (excl (splitOnSlash pe.2.path) pe.2.isDir = false ∧ c.ignoreDeleted = false ∧
      bGet pe.1 bpa = none ∧ pe.1 ∉ moved ∧
      reverseStep c excl moved bpa out pe =
        { out with
            sumDeleted := out.sumDeleted + 1,
            changes := out.changes ++
              [⟨diffTypeDeleted, none, some (blankFileInfo pe.1), []⟩] }) := by
  cases hbp : bGet pe.1 bpa with
  | some fb =>
    left
    simp only [reverseStep, hbp]
  | none =>
    by_cases hmv : pe.1 ∈ moved
    · left
      simp only [reverseStep, hbp, if_pos hmv]
    · by_cases h1 : excl (splitOnSlash pe.2.path) pe.2.isDir = true
      · left
        simp only [reverseStep, hbp, if_neg hmv, if_pos h1]
      · have h1f : excl (splitOnSlash pe.2.path) pe.2.isDir = false :=
          Bool.eq_false_iff.mpr h1
        by_cases hd : c.ignoreDeleted = false
        · refine Or.inr ⟨h1f, hd, rfl, hmv, ?_⟩
          simp only [reverseStep, hbp, if_neg hmv, if_neg h1, if_pos hd]
        · left
          simp only [reverseStep, hbp, if_neg hmv, if_neg h1, if_neg hd]

theorem forwardStep_self (c : DiffCmd) (excl : List String → Bool → Bool)
    (sh : Bool) (l : List (String × FileInfo)) (bcs : List (List Nat × FileInfo))
    (acc : List String × DiffOutput) (pe : String × FileInfo)
    (hmem : pe ∈ l) (hnd : (l.map Prod.fst).Nodup) :
    forwardStep c excl sh l bcs acc pe = acc := by
  have hpe : (pe.1, pe.2) ∈ l := by simpa using hmem
  have hg : bGet pe.1 l = some pe.2 := bGet_of_mem_nodup hpe hnd
  simp only [forwardStep, hg, compareFiles_self]
  split
  · rfl
  · simp

theorem reverseStep_self (c : DiffCmd) (excl : List String → Bool → Bool)
    (moved : List String) (l : List (String × FileInfo)) (out : DiffOutput)
    (pe : String × FileInfo) (hmem : pe ∈ l) :
    reverseStep c excl moved l out pe = out := by
  have hpe : (pe.1, pe.2) ∈ l := by simpa using hmem
  obtain ⟨w, hw⟩ := bGet_isSome_of_mem hpe
  simp only [reverseStep, hw]

theorem createModel_regular_single (p : String) (x : List Nat) (t : Int)
    (u g m : Nat) (sh : Bool) (csf : List Nat → List Nat) (fsv : String)
    (dt : Int) (rt : String)
    (h31 : m.testBit 31 = false) (h27 : m.testBit 27 = false)
    (h26 : m.testBit 26 = false) (h25 : m.testBit 25 = false)
    (h24 : m.testBit 24 = false) (h21 : m.testBit 21 = false) :
    createModel csf noExclusion false sh fsv dt rt [regFileEntry p x t u g m] =
      ({ hasMetaBucket := true, hasInfo := true, infoDecodes := true,
         meta := ⟨currentFormatVersion, fsv, dt, rt, sh⟩,
         byPath := [(p, regRecord p x t u g m
           (if sh then none else some (csf x)))],
         byCS := if sh then []
           else [(csf x, regRecord p x t u g m (some (csf x)))] }, true) := by
  cases sh <;>
    simp [createModel, walkTx, walkStep, initialStore, regFileEntry, regRecord,
      noExclusion, baseRecord, withLink, classify, h31, h27, h26, h25, h24,
      h21, bPut]

/-- C1: for every pair of non-shallow snapshots where the before snapshot
holds a regular file at path a with non-empty content x and the after
snapshot holds the same content x at a different path b, with
mtime/uid/gid/mode unchanged, diff(before, after) yields exactly one
Modified entry whose before path is a and after path is b with an empty
property diff, and zero Deleted and zero New entries. -/
theorem C1_rename_detection (a b : String) (hab : a ≠ b) (x : List Nat)
    (hx : x ≠ []) (t : Int) (u g m : Nat)
    (h31 : m.testBit 31 = false) (h27 : m.testBit 27 = false)
    (h26 : m.testBit 26 = false) (h25 : m.testBit 25 = false)
    (h24 : m.testBit 24 = false) (h21 : m.testBit 21 = false)
    (csf : List Nat → List Nat) (fsv : String) (dt : Int) (rt : String) :
    diffRun defaultDiffCmd noExclusion
        (createModel csf noExclusion false false fsv dt rt
          [regFileEntry a x t u g m]).1
        (createModel csf noExclusion false false fsv dt rt
          [regFileEntry b x t u g m]).1
      = ⟨0, 1, 0, [⟨diffTypeModified,
          some (regRecord a x t u g m (some (csf x))),
          some (regRecord b x t u g m (some (csf x))), []⟩]⟩ ∧
    (regRecord a x t u g m (some (csf x))).path = a ∧
    (regRecord b x t u g m (some (csf x))).path = b := by
  have hba : b ≠ a := fun h => hab h.symm
  have hsize : (0 : Int) < (x.length : Int) := by
    exact_mod_cast List.length_pos.mpr hx
  refine ⟨?_, rfl, rfl⟩
  rw [createModel_regular_single a x t u g m false csf fsv dt rt
      h31 h27 h26 h25 h24 h21,
    createModel_regular_single b x t u g m false csf fsv dt rt
      h31 h27 h26 h25 h24 h21]
  simp [diffRun, forwardStep, reverseStep, emptyOutput, bGet, noExclusion,
    defaultDiffCmd, compareFiles, regRecord, DiffCmd.ignored, hab, hba, hsize]

/-- C1 witness: the rename scenario at concrete inputs, every hypothesis
of the theorem discharged there. -/
theorem C1_rename_detection_witness :
    ("a" : String) ≠ "b" ∧ ([1] : List Nat) ≠ [] ∧
    (diffRun defaultDiffCmd noExclusion
        (createModel csfDemo noExclusion false false "v" 0 "r"
          [regFileEntry "a" [1] 5 7 8 420]).1
        (createModel csfDemo noExclusion false false "v" 0 "r"
          [regFileEntry "b" [1] 5 7 8 420]).1
      = ⟨0, 1, 0, [⟨diffTypeModified,
          some (regRecord "a" [1] 5 7 8 420 (some (csfDemo [1]))),
          some (regRecord "b" [1] 5 7 8 420 (some (csfDemo [1]))), []⟩]⟩ ∧
    (regRecord "a" [1] 5 7 8 420 (some (csfDemo [1]))).path = "a" ∧
    (regRecord "b" [1] 5 7 8 420 (some (csfDemo [1]))).path = "b") :=
  ⟨by decide, by decide,
    C1_rename_detection "a" "b" (by decide) [1] (by decide) 5 7 8 420
      (by decide) (by decide) (by decide) (by decide) (by decide) (by decide)
      csfDemo "v" 0 "r"⟩

/-- C6: if either snapshot is shallow, a same-content file moved from path
a to path b is reported as one New entry plus one Deleted entry — never as
a rename, and zero Modified entries. -/
theorem C6_shallow_degradation (a b : String) (hab : a ≠ b) (x : List Nat)
    (t : Int) (u g m : Nat)
    (h31 : m.testBit 31 = false) (h27 : m.testBit 27 = false)
    (h26 : m.testBit 26 = false) (h25 : m.testBit 25 = false)
    (h24 : m.testBit 24 = false) (h21 : m.testBit 21 = false)
    (sb sa : Bool) (hsh : sb || sa = true)
    (csf : List Nat → List Nat) (fsv : String) (dt : Int) (rt : String) :
    diffRun defaultDiffCmd noExclusion
        (createModel csf noExclusion false sb fsv dt rt
          [regFileEntry a x t u g m]).1
        (createModel csf noExclusion false sa fsv dt rt
          [regFileEntry b x t u g m]).1
      = ⟨1, 0, 1, [⟨diffTypeNew, none,
          some (regRecord b x t u g m
            (if sa = true then none else some (csf x))), []⟩,
          ⟨diffTypeDeleted, none, some (blankFileInfo a), []⟩]⟩ := by
  have hba : b ≠ a := fun h => hab h.symm
  rw [createModel_regular_single a x t u g m sb csf fsv dt rt
      h31 h27 h26 h25 h24 h21,
    createModel_regular_single b x t u g m sa csf fsv dt rt
      h31 h27 h26 h25 h24 h21]
  cases sb with
  | false =>
    cases sa with
    | false => simp at hsh
    | true =>
      simp [diffRun, forwardStep, reverseStep, emptyOutput, bGet, noExclusion,
        defaultDiffCmd, regRecord, blankFileInfo, DiffCmd.ignored, hab, hba]
  | true =>
    cases sa with
    | false =>
      simp [diffRun, forwardStep, reverseStep, emptyOutput, bGet, noExclusion,
        defaultDiffCmd, regRecord, blankFileInfo, DiffCmd.ignored, hab, hba]
    | true =>
      simp [diffRun, forwardStep, reverseStep, emptyOutput, bGet, noExclusion,
        defaultDiffCmd, regRecord, blankFileInfo, DiffCmd.ignored, hab, hba]

/-- C6 witness: the shallow degradation at concrete inputs (after snapshot
shallow), every hypothesis of the theorem discharged there. -/
theorem C6_shallow_degradation_witness :
    ("a" : String) ≠ "b" ∧ (false || true) = true ∧
    diffRun defaultDiffCmd noExclusion
        (createModel csfDemo noExclusion false false "v" 0 "r"
          [regFileEntry "a" [1] 5 7 8 420]).1
        (createModel csfDemo noExclusion false true "v" 0 "r"
          [regFileEntry "b" [1] 5 7 8 420]).1
      = ⟨1, 0, 1, [⟨diffTypeNew, none,
          some (regRecord "b" [1] 5 7 8 420
            (if true = true then none else some (csfDemo [1]))), []⟩,
          ⟨diffTypeDeleted, none, some (blankFileInfo "a"), []⟩]⟩ :=
  ⟨by decide, by decide,
    C6_shallow_degradation "a" "b" (by decide) [1] 5 7 8 420
      (by decide) (by decide) (by decide) (by decide) (by decide) (by decide)
      false true (by decide) csfDemo "v" 0 "r"⟩

/-- C9: diffing a store against an identical store yields the empty
change set — no New, Modified or Deleted entries and all summary counts
zero — for any options and any exclusion matcher, provided the byPath
bucket has no duplicate keys (bolt guarantees key uniqueness). -/
theorem C9_self_diff_empty (c : DiffCmd) (excl : List String → Bool → Bool)
    (s : Store) (hnd : (s.byPath.map Prod.fst).Nodup) :
    diffRun c excl s s = emptyOutput := by
  simp only [diffRun]
  rw [foldl_fixed _ _ _
    (fun pe hpe => forwardStep_self c excl _ s.byPath s.byCS _ pe hpe hnd)]
  exact foldl_fixed _ _ _
    (fun pe hpe => reverseStep_self c excl _ s.byPath _ pe hpe)

/-- The concrete two-file store used to witness the self-diff theorem. -/
def c9Store : Store :=
  (createModel csfDemo noExclusion false false "v" 0 "r"
    [regFileEntry "a" [1] 5 7 8 420, regFileEntry "b" [2] 6 7 8 420]).1

/-- C9 witness: the self-diff theorem applied to a concrete two-file
store, its no-duplicate-keys hypothesis discharged there. -/
theorem C9_self_diff_empty_witness :
    (c9Store.byPath.map Prod.fst).Nodup ∧
    diffRun defaultDiffCmd noExclusion c9Store c9Store = emptyOutput :=
  ⟨by decide, C9_self_diff_empty defaultDiffCmd noExclusion c9Store (by decide)⟩

/-- C2 amended: the checksum-matched rename branch is gated by the
suppress-modified option — with ignoreModified set, the diff emits no
Modified entry at all (renames included) and the modified count stays
zero, for any stores and matcher. -/
theorem C2_suppress_modified_gates_rename (c : DiffCmd)
    (excl : List String → Bool → Bool) (before after : Store)
    (him : c.ignoreModified = true) :
    (diffRun c excl before after).sumModified = 0 ∧
    ∀ d ∈ (diffRun c excl before after).changes,
      d.diffType ≠ diffTypeModified := by
  simp only [diffRun]
  have hfwd := foldl_inv
    (forwardStep c excl (before.meta.shallow || after.meta.shallow)
      before.byPath before.byCS)
    (fun acc => acc.2.sumModified = 0 ∧
      ∀ d ∈ acc.2.changes, d.diffType ≠ diffTypeModified)
    after.byPath ([], emptyOutput) ⟨rfl, by simp [emptyOutput]⟩
    (by
      intro acc pe _ hP
      rcases forwardStep_cases c excl
          (before.meta.shallow || after.meta.shallow)
          before.byPath before.byCS acc pe with
        heq | ⟨_, him2, _⟩ | ⟨_, _, _, heq⟩
      · rw [heq]; exact hP
      · rw [him] at him2; cases him2
      · rw [heq]
        refine ⟨hP.1, ?_⟩
        intro d hd
        rcases List.mem_append.mp hd with h | h
        · exact hP.2 d h
        · rw [List.mem_singleton.mp h]
          simp [diffTypeNew, diffTypeModified])
  exact foldl_inv
    (reverseStep c excl _ after.byPath)
    (fun out => out.sumModified = 0 ∧
      ∀ d ∈ out.changes, d.diffType ≠ diffTypeModified)
    before.byPath _ hfwd
    (by
      intro out pe _ hP
      rcases reverseStep_cases c excl _ after.byPath out pe with
        heq | ⟨_, _, _, _, heq⟩
      · rw [heq]; exact hP
      · rw [heq]
        refine ⟨hP.1, ?_⟩
        intro d hd
        rcases List.mem_append.mp hd with h | h
        · exact hP.2 d h
        · rw [List.mem_singleton.mp h]
          simp [diffTypeDeleted, diffTypeModified])

/-- The before store of the suppressed-rename counterexample: one regular
file "a" with content [1]. -/
def c2Before : Store :=
  (createModel csfDemo noExclusion false false "v" 0 "r"
    [regFileEntry "a" [1] 5 7 8 420]).1

/-- The after store of the suppressed-rename counterexample: the same
content moved to path "b". -/
def c2After : Store :=
  (createModel csfDemo noExclusion false false "v" 0 "r"
    [regFileEntry "b" [1] 5 7 8 420]).1

/-- C2 counterexample: on the same pair of snapshots the default diff
counts the checksum-matched rename as one Modified, but with the
suppress-modified option set the branch does not fire — the modified count
is zero and the file pair is reported as one New plus one Deleted instead,
contradicting the claim that the branch is not gated by the option. -/
theorem C2_rename_not_gated_counterexample :
    (diffRun defaultDiffCmd noExclusion c2Before c2After).sumModified = 1 ∧
    (diffRun ⟨[], false, true, false⟩ noExclusion c2Before c2After).sumModified
      = 0 ∧
    (diffRun ⟨[], false, true, false⟩ noExclusion c2Before c2After).changes =
      [⟨diffTypeNew, none,
        some (regRecord "b" [1] 5 7 8 420 (some (csfDemo [1]))), []⟩,
       ⟨diffTypeDeleted, none, some (blankFileInfo "a"), []⟩] := by
  decide

/-- C2 witness: the gating theorem applied to the concrete rename pair
with the suppress-modified option set. -/
theorem C2_suppress_modified_gates_rename_witness :
    (DiffCmd.ignoreModified ⟨[], false, true, false⟩) = true ∧
    (diffRun ⟨[], false, true, false⟩ noExclusion c2Before c2After).sumModified
      = 0 ∧
    ∀ d ∈ (diffRun ⟨[], false, true, false⟩ noExclusion c2Before
      c2After).changes, d.diffType ≠ diffTypeModified :=
  ⟨by decide,
    (C2_suppress_modified_gates_rename ⟨[], false, true, false⟩ noExclusion
      c2Before c2After (by decide)).1,
    (C2_suppress_modified_gates_rename ⟨[], false, true, false⟩ noExclusion
      c2Before c2After (by decide)).2⟩

/-- C7: an after-record with size 0 is never matched against the before
snapshot's checksum index — in any diff of well-formed stores, a Modified
entry whose before and after paths differ (a detected rename) always has a
positive after size, so two empty files at different paths are never
reported as a rename of each other. -/
theorem C7_zero_size_never_rename (c : DiffCmd)
    (excl : List String → Bool → Bool) (before after : Store)
    (hb : pathKeysConsistent before.byPath)
    (ha : pathKeysConsistent after.byPath) :
    ∀ d ∈ (diffRun c excl before after).changes,
      d.diffType = diffTypeModified →
      ∀ fb fa, d.fileBefore = some fb → d.fileAfter = some fa →
        fb.path ≠ fa.path → 0 < fa.size := by
  simp only [diffRun]
  have hfwd := foldl_inv
    (forwardStep c excl (before.meta.shallow || after.meta.shallow)
      before.byPath before.byCS)
    (fun acc => ∀ d ∈ acc.2.changes, d.diffType = diffTypeModified →
      ∀ fb fa, d.fileBefore = some fb → d.fileAfter = some fa →
        fb.path ≠ fa.path → 0 < fa.size)
    after.byPath ([], emptyOutput) (by simp [emptyOutput])
    (by
      intro acc pe hmem hP
      rcases forwardStep_cases c excl
          (before.meta.shallow || after.meta.shallow)
          before.byPath before.byCS acc pe with
        heq | ⟨_, _, ⟨fb, hget, heq⟩ | ⟨fb, cs, _, hsz, _, _, _, heq⟩⟩ |
        ⟨_, _, _, heq⟩
      · rw [heq]; exact hP
      · rw [heq]
        intro d hd
        rcases List.mem_append.mp hd with h | h
        · exact hP d h
        · rw [List.mem_singleton.mp h]
          intro _ fb' fa' hfb hfa hne
          rw [Option.some_injective _ hfb.symm,
            Option.some_injective _ hfa.symm] at hne
          have h1 : fb.path = pe.1 := hb (pe.1, fb) (bGet_eq_some_mem hget)
          have h2 : pe.2.path = pe.1 := ha pe hmem
          exact absurd (h1.trans h2.symm) hne
      · rw [heq]
        intro d hd
        rcases List.mem_append.mp hd with h | h
        · exact hP d h
        · rw [List.mem_singleton.mp h]
          intro _ fb' fa' _ hfa _
          rw [← Option.some_injective _ hfa]
          exact hsz
      · rw [heq]
        intro d hd
        rcases List.mem_append.mp hd with h | h
        · exact hP d h
        · rw [List.mem_singleton.mp h]
          intro hmod
          simp [diffTypeNew, diffTypeModified] at hmod)
  exact foldl_inv
    (reverseStep c excl _ after.byPath)
    (fun out => ∀ d ∈ out.changes, d.diffType = diffTypeModified →
      ∀ fb fa, d.fileBefore = some fb → d.fileAfter = some fa →
        fb.path ≠ fa.path → 0 < fa.size)
    before.byPath _ hfwd
    (by
      intro out pe _ hP
      rcases reverseStep_cases c excl _ after.byPath out pe with
        heq | ⟨_, _, _, _, heq⟩
      · rw [heq]; exact hP
      · rw [heq]
        intro d hd
        rcases List.mem_append.mp hd with h | h
        · exact hP d h
        · rw [List.mem_singleton.mp h]
          intro hmod
          simp [diffTypeDeleted, diffTypeModified] at hmod)

/-- The before store of the rename-size witness: one one-byte file "a". -/
def c7Before : Store :=
  (createModel csfDemo noExclusion false false "v" 0 "r"
    [regFileEntry "a" [1] 5 7 8 420]).1

/-- The after store of the rename-size witness: the same content at "b". -/
def c7After : Store :=
  (createModel csfDemo noExclusion false false "v" 0 "r"
    [regFileEntry "b" [1] 5 7 8 420]).1

/-- C7 witness: the theorem applied to a concrete rename pair, at the one
Modified entry the diff produces, every hypothesis discharged there. -/
theorem C7_zero_size_never_rename_witness :
    pathKeysConsistent c7Before.byPath ∧ pathKeysConsistent c7After.byPath ∧
    (⟨diffTypeModified, some (regRecord "a" [1] 5 7 8 420 (some (csfDemo [1]))),
      some (regRecord "b" [1] 5 7 8 420 (some (csfDemo [1]))), []⟩ : FileDiff)
      ∈ (diffRun defaultDiffCmd noExclusion c7Before c7After).changes ∧
    0 < (regRecord "b" [1] 5 7 8 420 (some (csfDemo [1]))).size :=
  ⟨by decide, by decide, by decide,
    C7_zero_size_never_rename defaultDiffCmd noExclusion c7Before c7After
      (by decide) (by decide)
      ⟨diffTypeModified,
        some (regRecord "a" [1] 5 7 8 420 (some (csfDemo [1]))),
        some (regRecord "b" [1] 5 7 8 420 (some (csfDemo [1]))), []⟩
      (by decide) rfl
      (regRecord "a" [1] 5 7 8 420 (some (csfDemo [1])))
      (regRecord "b" [1] 5 7 8 420 (some (csfDemo [1]))) rfl rfl (by decide)⟩

/-- C8 amended: the exclusion matcher is applied independently in both
passes using each record's own path and directory flag, so an excluded
path never appears as the reported after-side file of a New or Modified
entry nor as a Deleted entry; however, the before record of a
checksum-matched rename is not filtered, so an excluded before path can
still appear as the rename source of a Modified entry. -/
theorem C8_exclusion_applied_both_passes (c : DiffCmd)
    (excl : List String → Bool → Bool) (before after : Store) :
    ∀ d ∈ (diffRun c excl before after).changes,
      ∃ fa, d.fileAfter = some fa ∧
        ((d.diffType = diffTypeDeleted ∧
           ∃ fb, (fa.path, fb) ∈ before.byPath ∧
             excl (splitOnSlash fb.path) fb.isDir = false) ∨
         (d.diffType ≠ diffTypeDeleted ∧
           excl (splitOnSlash fa.path) fa.isDir = false)) := by
  simp only [diffRun]
  have hfwd := foldl_inv
    (forwardStep c excl (before.meta.shallow || after.meta.shallow)
      before.byPath before.byCS)
    (fun acc => ∀ d ∈ acc.2.changes,
      ∃ fa, d.fileAfter = some fa ∧
        ((d.diffType = diffTypeDeleted ∧
           ∃ fb, (fa.path, fb) ∈ before.byPath ∧
             excl (splitOnSlash fb.path) fb.isDir = false) ∨
         (d.diffType ≠ diffTypeDeleted ∧
           excl (splitOnSlash fa.path) fa.isDir = false)))
    after.byPath ([], emptyOutput) (by simp [emptyOutput])
    (by
      intro acc pe _ hP
      rcases forwardStep_cases c excl
          (before.meta.shallow || after.meta.shallow)
          before.byPath before.byCS acc pe with
        heq | ⟨h1f, _, ⟨fb, _, heq⟩ | ⟨fb, cs, _, _, _, _, _, heq⟩⟩ |
        ⟨h1f, _, _, heq⟩
      · rw [heq]; exact hP
      · rw [heq]
        intro d hd
        rcases List.mem_append.mp hd with h | h
        · exact hP d h
        · rw [List.mem_singleton.mp h]
          exact ⟨pe.2, rfl, Or.inr
            ⟨by simp [diffTypeModified, diffTypeDeleted], h1f⟩⟩
      · rw [heq]
        intro d hd
        rcases List.mem_append.mp hd with h | h
        · exact hP d h
        · rw [List.mem_singleton.mp h]
          exact ⟨pe.2, rfl, Or.inr
            ⟨by simp [diffTypeModified, diffTypeDeleted], h1f⟩⟩
      · rw [heq]
        intro d hd
        rcases List.mem_append.mp hd with h | h
        · exact hP d h
        · rw [List.mem_singleton.mp h]
          exact ⟨pe.2, rfl, Or.inr
            ⟨by simp [diffTypeNew, diffTypeDeleted], h1f⟩⟩)
  exact foldl_inv
    (reverseStep c excl _ after.byPath)
    (fun out => ∀ d ∈ out.changes,
      ∃ fa, d.fileAfter = some fa ∧
        ((d.diffType = diffTypeDeleted ∧
           ∃ fb, (fa.path, fb) ∈ before.byPath ∧
             excl (splitOnSlash fb.path) fb.isDir = false) ∨
         (d.diffType ≠ diffTypeDeleted ∧
           excl (splitOnSlash fa.path) fa.isDir = false)))
    before.byPath _ hfwd
    (by
      intro out pe hmem hP
      rcases reverseStep_cases c excl _ after.byPath out pe with
        heq | ⟨h1f, _, _, _, heq⟩
      · rw [heq]; exact hP
      · rw [heq]
        intro d hd
        rcases List.mem_append.mp hd with h | h
        · exact hP d h
        · rw [List.mem_singleton.mp h]
          refine ⟨blankFileInfo pe.1, rfl, Or.inl ⟨rfl, pe.2, ?_, h1f⟩⟩
          simpa using hmem)

/-- A matcher excluding exactly the path "e" (the pattern list ["e"]). -/
def c8Excl : List String → Bool → Bool := fun segs _ => segs == ["e"]

/-- The before store of the exclusion counterexample: one one-byte file at
the excluded path "e". -/
def c8Before : Store :=
  (createModel csfDemo noExclusion false false "v" 0 "r"
    [regFileEntry "e" [1] 5 7 8 420]).1

/-- The after store of the exclusion counterexample: the same content at
the non-excluded path "b". -/
def c8After : Store :=
  (createModel csfDemo noExclusion false false "v" 0 "r"
    [regFileEntry "b" [1] 5 7 8 420]).1

/-- C8 counterexample: path "e" matches the exclusion matcher, yet the
diff output contains a Modified entry whose before path is "e" — the
checksum-matched rename branch never applies the matcher to the matched
before record, so an excluded path does appear in the Modified output. -/
theorem C8_excluded_rename_source_counterexample :
    c8Excl (splitOnSlash "e") false = true ∧
    (diffRun defaultDiffCmd c8Excl c8Before c8After).changes =
      [⟨diffTypeModified,
        some (regRecord "e" [1] 5 7 8 420 (some (csfDemo [1]))),
        some (regRecord "b" [1] 5 7 8 420 (some (csfDemo [1]))), []⟩] ∧
    (regRecord "e" [1] 5 7 8 420 (some (csfDemo [1]))).path = "e" := by
  decide

/-- C8 witness: the amended theorem applied to the concrete rename pair at
its one Modified entry. -/
theorem C8_exclusion_applied_both_passes_witness :
    (⟨diffTypeModified,
      some (regRecord "e" [1] 5 7 8 420 (some (csfDemo [1]))),
      some (regRecord "b" [1] 5 7 8 420 (some (csfDemo [1]))), []⟩ : FileDiff)
      ∈ (diffRun defaultDiffCmd c8Excl c8Before c8After).changes ∧
    (∃ fa, (some (regRecord "b" [1] 5 7 8 420 (some (csfDemo [1])))
        : Option FileInfo) = some fa ∧
      ((diffTypeModified = diffTypeDeleted ∧
         ∃ fb, (fa.path, fb) ∈ c8Before.byPath ∧
           c8Excl (splitOnSlash fb.path) fb.isDir = false) ∨
       (diffTypeModified ≠ diffTypeDeleted ∧
         c8Excl (splitOnSlash fa.path) fa.isDir = false))) :=
  ⟨by decide,
    C8_exclusion_applied_both_passes defaultDiffCmd c8Excl c8Before c8After
      ⟨diffTypeModified,
        some (regRecord "e" [1] 5 7 8 420 (some (csfDemo [1]))),
        some (regRecord "b" [1] 5 7 8 420 (some (csfDemo [1]))), []⟩
      (by decide)⟩

/-- C3 amended: the byChecksum index of any build contains only records
of regular non-symlink entries (not a directory, socket, pipe or device,
no link target) carrying a checksum — of any size, zero included. -/
theorem C3_checksum_index_regular_only (csf : List Nat → List Nat)
    (excl : List String → Bool → Bool) (carryOn shallow : Bool)
    (fsv : String) (dt : Int) (rt : String) (entries : List WalkEntry) :
    ∀ kr ∈ (createModel csf excl carryOn shallow fsv dt rt entries).1.byCS,
      regularNonSymlink (kr : List Nat × FileInfo).2 := by
  simp only [createModel]
  cases h : walkTx csf excl carryOn shallow ⟨[], []⟩ entries with
  | none => simp [initialStore]
  | some bs =>
    simp only []
    exact walkTx_inv csf excl carryOn shallow
      (fun s => ∀ kr ∈ s.byCS, regularNonSymlink (kr : List Nat × FileInfo).2)
      (fun s e s' hws hs => walkStep_byCS_regular csf excl carryOn shallow
        s e s' hws hs)
      entries ⟨[], []⟩ bs h (by simp)

/-- The zero-size regular file used against the size part of the
byChecksum claim. -/
def c3ZeroEntry : WalkEntry := regFileEntry "z" [] 3 7 8 420

/-- C3 counterexample: a successful non-shallow build of a single
zero-size regular file stores that record in the byChecksum index — the
builder has no size guard, so a zero-size file's record is stored under a
checksum key, contradicting the non-zero-size part of the claim. -/
theorem C3_zero_size_indexed_counterexample :
    (createModel csfDemo noExclusion false false "v" 0 "r" [c3ZeroEntry]).2
      = true ∧
    (createModel csfDemo noExclusion false false "v" 0 "r"
        [c3ZeroEntry]).1.byCS =
      [(csfDemo [], regRecord "z" [] 3 7 8 420 (some (csfDemo [])))] ∧
    (regRecord "z" [] 3 7 8 420 (some (csfDemo []))).size = 0 := by
  decide

/-- C3 witness: the amended theorem applied to the zero-size build at its
one byChecksum record. -/
theorem C3_checksum_index_regular_only_witness :
    ((csfDemo [], regRecord "z" [] 3 7 8 420 (some (csfDemo []))) ∈
      (createModel csfDemo noExclusion false false "v" 0 "r"
        [c3ZeroEntry]).1.byCS) ∧
    regularNonSymlink (regRecord "z" [] 3 7 8 420 (some (csfDemo []))) :=
  ⟨by decide,
    C3_checksum_index_regular_only csfDemo noExclusion false false "v" 0 "r"
      [c3ZeroEntry]
      (csfDemo [], regRecord "z" [] 3 7 8 420 (some (csfDemo [])))
      (by decide)⟩

/-- A snapshot store whose metadata carries format version 2, different
from the tool's current format version 1. -/
def c4Store : Store :=
  { hasMetaBucket := true, hasInfo := true, infoDecodes := true,
    meta := ⟨2, "v2", 0, "r", false⟩, byPath := [], byCS := [] }

/-- C4 counterexample: a snapshot whose stored formatVersion differs from
the current format version still opens successfully — Open returns its
metadata instead of an error, contradicting the claim that a mismatching
snapshot is rejected. -/
theorem C4_version_mismatch_accepted_counterexample :
    c4Store.meta.formatVersion ≠ currentFormatVersion ∧
    openSnapshot c4Store = some c4Store.meta := by
  decide

/-- C4 amended: Open never inspects formatVersion — it succeeds and
returns the stored metadata whenever the metadata bucket exists, holds an
info record and that record decodes, whatever format version the metadata
carries. -/
theorem C4_open_ignores_format_version (s : Store)
    (h1 : s.hasMetaBucket = true) (h2 : s.hasInfo = true)
    (h3 : s.infoDecodes = true) :
    openSnapshot s = some s.meta := by
  simp [openSnapshot, h1, h2, h3]

/-- C4 witness: the amended theorem applied to the version-2 store, its
hypotheses discharged there. -/
theorem C4_open_ignores_format_version_witness :
    c4Store.hasMetaBucket = true ∧ c4Store.hasInfo = true ∧
    c4Store.infoDecodes = true ∧ openSnapshot c4Store = some c4Store.meta :=
  ⟨rfl, rfl, rfl, C4_open_ignores_format_version c4Store rfl rfl rfl⟩

/-- C5 amended: the builder runs two write transactions — newSnapshot
commits metadata and empty buckets before the traversal starts.  When the
build fails, the traversal transaction rolls back and nothing truncates or
removes the output, so the failed build leaves exactly the store
newSnapshot committed, and that store opens successfully. -/
theorem C5_failed_build_leaves_initial_store (csf : List Nat → List Nat)
    (excl : List String → Bool → Bool) (carryOn shallow : Bool)
    (fsv : String) (dt : Int) (rt : String) (entries : List WalkEntry)
    (hfail : (createModel csf excl carryOn shallow fsv dt rt entries).2
      = false) :
    (createModel csf excl carryOn shallow fsv dt rt entries).1 =
      initialStore fsv dt rt shallow ∧
    openSnapshot (createModel csf excl carryOn shallow fsv dt rt entries).1 =
      some (initialStore fsv dt rt shallow).meta := by
  simp only [createModel] at hfail ⊢
  cases h : walkTx csf excl carryOn shallow ⟨[], []⟩ entries with
  | some bs =>
    rw [h] at hfail
    exact Bool.noConfusion hfail
  | none => exact ⟨rfl, by simp [openSnapshot, initialStore]⟩

/-- A traversal that aborts: its only entry delivers a walk error, and
carry-on is not set. -/
def c5FailEntries : List WalkEntry :=
  [{ regFileEntry "x" [1] 0 7 8 420 with walkErr := true }]

/-- C5 counterexample: the aborted build reports failure, yet the store
it leaves behind opens successfully with complete-looking metadata — the
output is neither discarded nor truncated, and the metadata was committed
in a transaction of its own before the traversal, contradicting both the
never-opens claim and the single-transaction claim. -/
theorem C5_failed_build_opens_counterexample :
    (createModel csfDemo noExclusion false false "v" 0 "r" c5FailEntries).2
      = false ∧
    openSnapshot
        (createModel csfDemo noExclusion false false "v" 0 "r"
          c5FailEntries).1 =
      some ⟨currentFormatVersion, "v", 0, "r", false⟩ := by
  decide

/-- C5 witness: the amended theorem applied to the concrete aborting
traversal, its failure hypothesis discharged there. -/
theorem C5_failed_build_leaves_initial_store_witness :
    (createModel csfDemo noExclusion false false "v" 0 "r" c5FailEntries).2
      = false ∧
    ((createModel csfDemo noExclusion false false "v" 0 "r"
        c5FailEntries).1 = initialStore "v" 0 "r" false ∧
     openSnapshot (createModel csfDemo noExclusion false false "v" 0 "r"
        c5FailEntries).1 = some (initialStore "v" 0 "r" false).meta) :=
  ⟨by decide,
    C5_failed_build_leaves_initial_store csfDemo noExclusion false false
      "v" 0 "r" c5FailEntries (by decide)⟩

/-- C10: in every snapshot from a successful build over distinct paths,
each byChecksum entry (k, r) satisfies r.checksum = k, and the byPath
bucket holds the identical record r under the key r.path — the checksum
index never references a record absent from the path index. -/
theorem C10_checksum_index_integrity (csf : List Nat → List Nat)
    (excl : List String → Bool → Bool) (carryOn shallow : Bool)
    (fsv : String) (dt : Int) (rt : String) (entries : List WalkEntry)
    (hnd : (entries.map WalkEntry.path).Nodup)
    (hok : (createModel csf excl carryOn shallow fsv dt rt entries).2
      = true) :
    ∀ kr ∈ (createModel csf excl carryOn shallow fsv dt rt entries).1.byCS,
      (kr : List Nat × FileInfo).2.checksum = some kr.1 ∧
      bGet kr.2.path
          (createModel csf excl carryOn shallow fsv dt rt entries).1.byPath =
        some kr.2 := by
  simp only [createModel] at hok ⊢
  cases h : walkTx csf excl carryOn shallow ⟨[], []⟩ entries with
  | none =>
    rw [h] at hok
    exact Bool.noConfusion hok
  | some bs =>
    exact walkTx_csConsistent csf excl carryOn shallow entries ⟨[], []⟩ bs
      hnd (by simp) (by simp [csConsistent]) h

/-- C10 witness: the integrity theorem applied to a concrete two-file
build at one of its byChecksum records, every hypothesis discharged
there. -/
theorem C10_checksum_index_integrity_witness :
    ((List.map WalkEntry.path
      [regFileEntry "a" [1] 5 7 8 420, regFileEntry "b" [2] 6 7 8 420]).Nodup) ∧
    (createModel csfDemo noExclusion false false "v" 0 "r"
      [regFileEntry "a" [1] 5 7 8 420, regFileEntry "b" [2] 6 7 8 420]).2
      = true ∧
    ((csfDemo [1], regRecord "a" [1] 5 7 8 420 (some (csfDemo [1]))) ∈
      (createModel csfDemo noExclusion false false "v" 0 "r"
        [regFileEntry "a" [1] 5 7 8 420,
         regFileEntry "b" [2] 6 7 8 420]).1.byCS) ∧
    ((regRecord "a" [1] 5 7 8 420 (some (csfDemo [1]))).checksum
      = some (csfDemo [1]) ∧
     bGet (regRecord "a" [1] 5 7 8 420 (some (csfDemo [1]))).path
        (createModel csfDemo noExclusion false false "v" 0 "r"
          [regFileEntry "a" [1] 5 7 8 420,
           regFileEntry "b" [2] 6 7 8 420]).1.byPath =
      some (regRecord "a" [1] 5 7 8 420 (some (csfDemo [1])))) :=
  ⟨by decide, by decide, by decide,
    C10_checksum_index_integrity csfDemo noExclusion false false "v" 0 "r"
      [regFileEntry "a" [1] 5 7 8 420, regFileEntry "b" [2] 6 7 8 420]
      (by decide) (by decide)
      (csfDemo [1], regRecord "a" [1] 5 7 8 420 (some (csfDemo [1])))
      (by decide)⟩

end Fsdiff
